import Mathlib

set_option maxRecDepth 100000

/-!
Verification of the streaming pronunciation-evaluation client in
`services/speech-recognition.ts` (class `SpeechRecognitionService`) against its
specification.  The TypeScript source is shallowly embedded: pure computations
become Lean functions, the event-driven result wait becomes a step function on
an explicit state type, and the retry loop becomes a trace-producing function
over an oracle of attempt outcomes.  JavaScript numbers appearing here are
byte values, chunk sizes and protocol status codes: all small non-negative
integers, embedded as `Nat`.
-/

/-! ## Configuration constants, from `config/api-config.ts` -/

/-- The audio chunk size in bytes, `audioConfig.chunk_size`
(80 ms of 16 kHz / 16-bit mono PCM). -/
def chunk_size : Nat := 2560

/-- The application id `xfyunConfig.APPID`. -/
def APPID : String := "a696bc26"

/-- The API secret `xfyunConfig.API_SECRET`, the HMAC key of the signer. -/
def API_SECRET : String := "ZDQxMGYzNmQ2ZTg4NWNjOTY2MjhiZjI3"

/-- The API key `xfyunConfig.API_KEY`, named in the authorization header. -/
def API_KEY : String := "761d772b70b55f9225c5e55b89c58963"

/-- The connection endpoint `xfyunConfig.BASE_URL`. -/
def BASE_URL : String := "wss://ise-api.xfyun.cn/v2/open-ise"

/-! ## The audio framer: the chunking loop of `evaluateSpeech` together with
`sendAudioChunk` (lines 257-292 and 704-720 of `speech-recognition.ts`) -/

/-- One audio frame as sent by `sendAudioChunk`: the byte offset of the chunk in
the source buffer, its byte length (`chunk.byteLength` of
`audioData.slice(i, i + chunk_size)`), the two position flags the loop computes,
and the `business.aus` and `data.status` fields of the JSON message built from
them. -/
structure SentChunk where
  offset : Nat
  len : Nat
  isFirst : Bool
  isLast : Bool
  aus : Nat
  status : Nat
deriving Repr, DecidableEq

/-- The `aus` field as computed in `sendAudioChunk`:
`let aus = 2; if (isFirst) aus = 1; if (isLast) aus = 4;` — the `isLast`
assignment comes second, so it wins when both flags hold. -/
def sendAus (isFirst isLast : Bool) : Nat :=
  let aus : Nat := 2
  let aus := if isFirst then 1 else aus
  if isLast then 4 else aus

/-- The `data.status` field as computed in `sendAudioChunk`: `isLast ? 2 : 1`. -/
def sendStatus (isLast : Bool) : Nat := if isLast then 2 else 1

/-- The frame sent at loop offset `i` for a buffer of `L` bytes and chunk size
`C`, following the loop body of `evaluateSpeech`:
`chunk = audioData.slice(i, i + C)` (so `chunk.byteLength = min C (L - i)`),
`isLast = (i + C >= L)`, `isFirst = (i === 0)`. -/
def frameAt (C L i : Nat) : SentChunk :=
  { offset := i
    len := min C (L - i)
    isFirst := decide (i = 0)
    isLast := decide (L ≤ i + C)
    aus := sendAus (decide (i = 0)) (decide (L ≤ i + C))
    status := sendStatus (decide (L ≤ i + C)) }

/-- The chunking loop of `evaluateSpeech`,
`for (let i = 0; i < audioData.byteLength; i += chunk_size)`, written with an
explicit iteration budget `fuel` so that the recursion is structural; the loop
guard `i < L` is the genuine exit condition, and any `fuel ≥ number of
iterations` computes the same list. -/
def chunkGo (C L : Nat) : Nat → Nat → List SentChunk
  | _, 0 => []
  | i, fuel + 1 => if i < L then frameAt C L i :: chunkGo C L (i + C) fuel else []

/-- All frames sent for a buffer of `L` bytes with chunk size `C`: the loop run
from offset `0`.  `L + 1` iterations always suffice when `C > 0`. -/
def sentChunks (C L : Nat) : List SentChunk := chunkGo C L 0 (L + 1)

/-! ## The data model of `speech-recognition.ts`: results and server envelopes -/

/-- The `PhoneError` interface.  No code path of the parser ever constructs one
(phone-level detail is not populated from the observed payload shape). -/
structure PhoneError where
  phone_content : String
  error_level : Nat
  is_yun : Bool
  tone : String
  error_type : String
deriving Repr, DecidableEq

/-- The `WordDetail` interface. -/
structure WordDetail where
  content : String
  symbol : String
  beg_pos : Nat
  end_pos : Nat
  time_len : Nat
  errors : List PhoneError
deriving Repr, DecidableEq

/-- The inner `data` object of a server envelope:
`{status ∈ {1 interim, 2 final, 3 rejected, 4 empty}, data?, data_type?}`.
A `none` field models an absent (JavaScript `undefined`) field. -/
structure EnvData where
  status : Option Nat
  data : Option String
  data_type : Option Nat
deriving Repr, DecidableEq

/-- One parsed server-to-client message, `{code?, message?, data?}`, together
with the `action`/`desc` fields that `receiveResult` also inspects. -/
structure Envelope where
  code : Option Int
  message : Option String
  data : Option EnvData
  action : Option String
  desc : Option String
deriving Repr, DecidableEq

/-- The `SpeechRecognitionResult` interface, the `ScoreResult` of the spec.
`raw_result` holds the final envelope the result was parsed from. -/
structure SpeechRecognitionResult where
  overall_score : Nat
  pronunciation_score : Nat
  fluency_score : Nat
  integrity_score : Nat
  tone_score : Nat
  accuracy_score : Nat
  emotion_score : Nat
  word_details : List WordDetail
  is_rejected : Bool
  except_info : String
  raw_result : Envelope
deriving Repr, DecidableEq

/-! ## The score extractor `extractScoresFromXML` (lines 486-626)

Each dimension is looked up with `xmlData.match(/<tag>(\d+)<\/tag>/)`.  The
regex is embedded exactly: a match at position `p` requires the literal
open tag, then a non-empty digit run, then the literal close tag; since `\d+`
is greedy and the character after it in the pattern (`<`) is not a digit, the
JavaScript engine takes the maximal digit run, and `String.match` without the
`g` flag returns the leftmost match.  `parseInt` of the captured digit run is
its decimal value. -/

/-- Decimal value of a digit run, as `parseInt` computes it on `\d+` captures. -/
def digitsToNat (ds : List Char) : Nat :=
  ds.foldl (fun n c => 10 * n + (c.toNat - 48)) 0

/-- Splits a leading digit run (the greedy `\d+`) from the rest. -/
def spanDigits : List Char → List Char × List Char
  | [] => ([], [])
  | c :: cs =>
    if c.isDigit then
      let r := spanDigits cs
      (c :: r.1, r.2)
    else ([], c :: cs)

/-- Consumes the literal `lit` from the front of `s`, returning the rest, or
`none` when `s` does not start with `lit`. -/
def dropLit : List Char → List Char → Option (List Char)
  | [], s => some s
  | _ :: _, [] => none
  | p :: ps, c :: cs => if p = c then dropLit ps cs else none

/-- Tries the pattern `<tag>(\d+)</tag>` anchored at the front of `s`,
returning the captured value. -/
def tryTagAt (openTag closeTag : List Char) (s : List Char) : Option Nat :=
  match dropLit openTag s with
  | none => none
  | some rest =>
    let r := spanDigits rest
    if r.1 = [] then none
    else
      match dropLit closeTag r.2 with
      | some _ => some (digitsToNat r.1)
      | none => none

/-- Leftmost match of `<tag>(\d+)</tag>` in the text: the anchored try at each
position, left to right. -/
def findFrom (openTag closeTag : List Char) : List Char → Option Nat
  | [] => none
  | c :: cs =>
    match tryTagAt openTag closeTag (c :: cs) with
    | some v => some v
    | none => findFrom openTag closeTag cs

/-- `xmlData.match(/<tag>(\d+)<\/tag>/)`, returning the captured decimal value
of the leftmost match. -/
def findTagNum (tag : String) (xml : String) : Option Nat :=
  findFrom (('<' :: tag.data) ++ ['>']) (('<' :: '/' :: tag.data) ++ ['>']) xml.data

/-- One dimension of `extractScoresFromXML`: the primary tag name is tried
first, and only when it yields no match is the alternate name tried; when
neither matches, the dimension is left unset (`none`), which models the key
being absent from the returned `scores` object (the code logs `❌ 未找到` in
that branch). -/
def dimScore (primary alt : String) (xml : String) : Option Nat :=
  match findTagNum primary xml with
  | some v => some v
  | none => findTagNum alt xml

/-- The `scores` object built by `extractScoresFromXML`, one optional entry per
dimension; `none` is the explicit "not found" outcome (the key absent from the
JavaScript object), distinct from `some 0` (a tag that scored 0).

The source has one further branch (lines 602-617): when all seven named
lookups fail, a generic scan for `/<(\w+_?score|\w+)>(\d+)<\/\1>/g` stores any
tag/value pairs it finds under their own tag names.  That branch can never
write one of the seven dimension keys: a stored key equals the matched tag
name, so writing e.g. `overall` would need a substring `<overall>digits</overall>`,
which the alternate-name lookup would already have found — contradicting that
the branch only runs when every named lookup failed.  The seven fields below
are therefore a complete model of the dimensions the result is built from. -/
structure Scores where
  overall : Option Nat
  pronunciation : Option Nat
  fluency : Option Nat
  integrity : Option Nat
  tone : Option Nat
  accuracy : Option Nat
  emotion : Option Nat
deriving Repr, DecidableEq

/-- `extractScoresFromXML`: the seven dimension lookups, each primary tag name
first, then the alternate. -/
def extractScoresFromXML (xml : String) : Scores :=
  { overall := dimScore "overall_score" "overall" xml
    pronunciation := dimScore "pronunciation_score" "pronunciation" xml
    fluency := dimScore "fluency_score" "fluency" xml
    integrity := dimScore "integrity_score" "integrity" xml
    tone := dimScore "tone_score" "tone" xml
    accuracy := dimScore "accuracy_score" "accuracy" xml
    emotion := dimScore "emotion_score" "emotion" xml }

/-! ## The word-detail extractor `extractWordDetailsFromXML` (lines 629-671) -/

/-- Splits a character list at the first `>`: the chars before it and the rest
after it, or `none` when there is no `>` (so `[^>]*>` cannot match). -/
def takeUntilGt : List Char → Option (List Char × List Char)
  | [] => none
  | c :: cs =>
    if c = '>' then some ([], cs)
    else
      match takeUntilGt cs with
      | some r => some (c :: r.1, r.2)
      | none => none

/-- Anchored try of `/<word[^>]*>/`: when `s` starts with `<word` and a `>`
follows, returns the whole matched tag text and the rest of the input. -/
def tryWordTag (s : List Char) : Option (List Char × List Char) :=
  match dropLit ('<' :: 'w' :: 'o' :: 'r' :: 'd' :: []) s with
  | none => none
  | some rest =>
    match takeUntilGt rest with
    | some r => some (('<' :: 'w' :: 'o' :: 'r' :: 'd' :: r.1) ++ ['>'], r.2)
    | none => none

/-- `xmlData.match(/<word[^>]*>/g)`: every non-overlapping leftmost match, the
scan resuming after each match.  `fuel` bounds the iteration so the recursion
is structural; every match consumes at least one character, so fuel equal to
the input length suffices. -/
def wordTagGo : Nat → List Char → List (List Char)
  | 0, _ => []
  | _ + 1, [] => []
  | fuel + 1, c :: cs =>
    match tryWordTag (c :: cs) with
    | some r => r.1 :: wordTagGo fuel r.2
    | none => wordTagGo fuel cs

/-- All `<word...>` tag texts of the payload. -/
def wordTagMatches (s : List Char) : List (List Char) := wordTagGo s.length s

/-- Splits at the first `"` (for the `[^"]*` capture of a quoted attribute). -/
def takeUntilQuote : List Char → Option (List Char × List Char)
  | [] => none
  | c :: cs =>
    if c = '"' then some ([], cs)
    else
      match takeUntilQuote cs with
      | some r => some (c :: r.1, r.2)
      | none => none

/-- `tag.match(/name="([^"]*)"/)`: the leftmost occurrence of `name="` that is
followed by a closing quote, returning the capture. -/
def findAttrGo (pat : List Char) : List Char → Option (List Char)
  | [] => none
  | c :: cs =>
    match dropLit pat (c :: cs) with
    | some rest =>
      match takeUntilQuote rest with
      | some r => some r.1
      | none => findAttrGo pat cs
    | none => findAttrGo pat cs

/-- `tag.match(/name="(\d+)"/)`: as `findAttrGo`, but the capture is a
non-empty digit run immediately followed by the closing quote; a position
where that fails is skipped, as the regex engine moves its start forward. -/
def findNumAttrGo (pat : List Char) : List Char → Option Nat
  | [] => none
  | c :: cs =>
    match dropLit pat (c :: cs) with
    | some rest =>
      let r := spanDigits rest
      if r.1 ≠ [] ∧ r.2.head? = some '"' then some (digitsToNat r.1)
      else findNumAttrGo pat cs
    | none => findNumAttrGo pat cs

/-- The body of the `wordMatches.forEach` loop: a detail is produced only when
the `content` attribute matches, with `symbol` defaulted to `""` and the
positions to `0` when their attributes are missing; `time_len` is always `0`
and `errors` always empty in this payload shape. -/
def wordDetailOfTag (tag : List Char) : Option WordDetail :=
  match findAttrGo ("content=\"".data) tag with
  | none => none
  | some content =>
    some
      { content := String.mk content
        symbol := (findAttrGo ("symbol=\"".data) tag).elim "" String.mk
        beg_pos := (findNumAttrGo ("beg_pos=\"".data) tag).getD 0
        end_pos := (findNumAttrGo ("end_pos=\"".data) tag).getD 0
        time_len := 0
        errors := [] }

/-- `extractWordDetailsFromXML`: scan for `<word...>` tags, keep those with a
`content` attribute. -/
def extractWordDetailsFromXML (xml : String) : List WordDetail :=
  (wordTagMatches xml.data).filterMap wordDetailOfTag

/-! ## The result parser `parseRealResult` (lines 454-483) -/

/-- JavaScript truthiness of an optional string field: present and non-empty. -/
def truthyStr : Option String → Bool
  | some s => s ≠ ""
  | none => false

/-- `parseRealResult`.  The guard is the source's `if (data.data && data.data.data)`:
the envelope must carry a `data` object whose `data` field is a truthy
(non-empty) string.  When it fails, the inner `throw new Error('无效的API响应格式')`
is caught by the surrounding `try`/`catch` and rethrown as `解析评测结果失败`,
the surfaced error.  `scores.overall || 0` maps an absent dimension to `0`
(and, `0 || 0` being `0`, is exactly `Option.getD 0`). -/
def parseRealResult (d : Envelope) : Except String SpeechRecognitionResult :=
  match d.data with
  | none => .error "解析评测结果失败"
  | some dd =>
    match dd.data with
    | none => .error "解析评测结果失败"
    | some xml =>
      if xml = "" then .error "解析评测结果失败"
      else
        let scores := extractScoresFromXML xml
        .ok
          { overall_score := scores.overall.getD 0
            pronunciation_score := scores.pronunciation.getD 0
            fluency_score := scores.fluency.getD 0
            integrity_score := scores.integrity.getD 0
            tone_score := scores.tone.getD 0
            accuracy_score := scores.accuracy.getD 0
            emotion_score := scores.emotion.getD 0
            word_details := extractWordDetailsFromXML xml
            is_rejected := decide (dd.status = some 3)
            except_info := if dd.status = some 3 then "评测被拒绝" else ""
            raw_result := d }

/-! ## The result wait `receiveResult` (lines 336-451)

`receiveResult` installs `onmessage`/`onerror`/`onclose` handlers and returns a
promise.  The wait is embedded as a state machine: the state is the pending
promise (still waiting, with the `hasReceivedFinalResult` flag), or its settled
value; incoming transport events drive `step`.  A settled promise absorbs all
further events (`resolve`/`reject` on a settled promise are no-ops). -/

/-- A transport event observed while waiting: a message whose JSON payload
parsed to an envelope (`none` models a frame `JSON.parse` throws on), a
transport error, or a close with its code and reason. -/
inductive WsEvent
  | message (env : Option Envelope)
  | socketError
  | socketClose (code : Nat) (reason : String)
deriving Repr, DecidableEq

/-- The state of the result wait: still waiting (carrying
`hasReceivedFinalResult`), resolved with a result, or rejected with an error
message. -/
inductive WaitState
  | waiting (finalFlagged : Bool)
  | resolved (r : SpeechRecognitionResult)
  | rejectedErr (msg : String)
deriving Repr, DecidableEq

/-- JavaScript `s || dflt` for an optional string: the default also replaces a
present-but-empty (falsy) string. -/
def jsOr (s : Option String) (dflt : String) : String :=
  match s with
  | some m => if m = "" then dflt else m
  | none => dflt

/-- The trailing `data.action` checks of the `onmessage` handler: only
`action === 'error'` settles the promise; anything else keeps waiting. -/
def handleAction (flag : Bool) (env : Envelope) : WaitState :=
  if env.action = some "error" then .rejectedErr ("API错误: " ++ jsOr env.desc "未知错误")
  else .waiting flag

/-- The `data.data` status dispatch of the `onmessage` handler, in source
order: status 1 keeps waiting; status 2 with a truthy payload parses and
resolves (were the parse to throw, the handler's `catch` would swallow it,
with the final flag already set); status 3 and 4 reject; any other status
falls through to the `action` checks, as does an envelope without `data`. -/
def handleData (flag : Bool) (env : Envelope) : WaitState :=
  match env.data with
  | some dd =>
    if dd.status = some 1 then .waiting flag
    else if dd.status = some 2 ∧ truthyStr dd.data then
      match parseRealResult env with
      | .ok r => .resolved r
      | .error _ => .waiting true
    else if dd.status = some 3 then .rejectedErr "评测被拒绝"
    else if dd.status = some 4 then .rejectedErr "评测完成但无数据"
    else handleAction flag env
  | none => handleAction flag env

/-- The whole `onmessage` handler: an unparsable frame is logged and ignored;
then `if (data.code !== undefined && data.code !== 0)` rejects with the
envelope's message; otherwise the status dispatch runs. -/
def stepMessage (flag : Bool) : Option Envelope → WaitState
  | none => .waiting flag
  | some env =>
    match env.code with
    | some c => if c ≠ 0 then .rejectedErr ("API返回错误: " ++ jsOr env.message "未知错误")
                else handleData flag env
    | none => handleData flag env

/-- One transport event applied to the wait state.  `onerror` rejects;
`onclose` rejects only when no final result was flagged
(`if (!hasReceivedFinalResult)`), with `event.reason || '未知原因'`. -/
def step : WaitState → WsEvent → WaitState
  | .waiting flag, .message env => stepMessage flag env
  | .waiting _, .socketError => .rejectedErr "WebSocket错误"
  | .waiting flag, .socketClose _ reason =>
    if flag then .waiting flag
    else .rejectedErr ("WebSocket连接关闭: " ++ jsOr (some reason) "未知原因")
  | .resolved r, _ => .resolved r
  | .rejectedErr m, _ => .rejectedErr m

/-- The wait over a whole event sequence, from the fresh promise
(`hasReceivedFinalResult = false`). -/
def runReceive (events : List WsEvent) : WaitState :=
  events.foldl step (.waiting false)

/-! ## The retry loop of `evaluateSpeech` (lines 674-777)

One whole attempt (connect, config, chunk streaming, result wait) either
returns a result or throws; which of the two happens on the attempt with a
given `retryCount` is abstracted into an oracle `outcome`.  The loop is
embedded as a trace-producing function: the trace records each attempt start,
each teardown (`this.close()` in the catch block) and each backoff wait, in
the order the statements execute. -/

/-- `const maxRetries = 3`. -/
def maxRetries : Nat := 3

/-- One observable action of the retry loop: starting the `n`-th attempt
(1-based, the `第{retryCount + 1}次尝试` of the log), tearing down the
connection, or sleeping `ms` milliseconds. -/
inductive RetryEvent
  | attempt (n : Nat)
  | close
  | wait (ms : Nat)
deriving Repr, DecidableEq

/-- The `while (retryCount < maxRetries)` loop.  On failure the catch block
increments `retryCount`, closes the connection, throws the aggregated error
once `retryCount >= maxRetries`, and otherwise waits `retryCount * 1000` ms
and loops.  The unreachable `throw new Error('语音评测失败')` after the loop
is kept as the guard-false case.  `fuel` makes the recursion structural; any
`fuel ≥ max - retryCount` computes the same function. -/
def evalLoopGo (outcome : Nat → Except String SpeechRecognitionResult) (max : Nat) :
    Nat → Nat → List RetryEvent × Except String SpeechRecognitionResult
  | _, 0 => ([], .error "语音评测失败")
  | retryCount, fuel + 1 =>
    if retryCount < max then
      match outcome retryCount with
      | .ok r => ([.attempt (retryCount + 1)], .ok r)
      | .error e =>
        if max ≤ retryCount + 1 then
          ([.attempt (retryCount + 1), .close],
           .error ("语音评测失败，已重试" ++ toString max ++ "次: " ++ e))
        else
          let rest := evalLoopGo outcome max (retryCount + 1) fuel
          (.attempt (retryCount + 1) :: .close :: .wait ((retryCount + 1) * 1000) :: rest.1,
           rest.2)
    else ([], .error "语音评测失败")

/-- `evaluateSpeech`'s retry loop from `retryCount = 0` with `maxRetries = 3`. -/
def evaluateSpeechLoop (outcome : Nat → Except String SpeechRecognitionResult) :
    List RetryEvent × Except String SpeechRecognitionResult :=
  evalLoopGo outcome maxRetries 0 maxRetries

/-- Recognizes attempt-start events, for counting attempts in a trace. -/
def isAttempt : RetryEvent → Bool
  | .attempt _ => true
  | _ => false

/-! ## The configuration frame of `sendConfig` (lines 217-254) -/

/-- A JSON value, as far as the configuration frame needs one: strings,
non-negative numbers, booleans and objects with ordered fields
(`JSON.stringify` serializes fields in insertion order). -/
inductive Json
  | str (s : String)
  | num (n : Nat)
  | bool (b : Bool)
  | obj (fields : List (String × Json))

/-- The `configData` object built by `sendConfig(text)`, field for field.
`this.config.appId` is `xfyunConfig.APPID` (set in the constructor and never
overwritten by `evaluateSpeech`). -/
def sendConfigFrame (text : String) : Json :=
  .obj
    [("common", .obj [("app_id", .str APPID)]),
     ("business", .obj
       [("sub", .str "ise"),
        ("ent", .str "cn_vip"),
        ("category", .str "read_sentence"),
        ("cmd", .str "ssb"),
        ("text", .str ("\uFEFF" ++ text)),
        ("tte", .str "utf-8"),
        ("ttp_skip", .bool true),
        ("aue", .str "raw"),
        ("auf", .str "audio/L16;rate=16000"),
        ("aus", .num 1)]),
     ("data", .obj
       [("status", .num 0),
        ("data", .str ""),
        ("data_type", .num 1)])]

/-- The configuration message as the spec writes it (§6):
`{common:{app_id}, business:{sub:"ise", ent, category:"read_sentence",
cmd:"ssb", text:"\uFEFF"+targetText, tte:"utf-8", ttp_skip:true, aue:"raw",
auf:"audio/L16;rate=16000", aus:1}, data:{status:0, data:"", data_type:1}}`,
with `ent = "cn_vip"` as the claim spells it.  This definition follows the
spec's words, to be compared with `sendConfigFrame`, which follows the code. -/
def specConfigMessage (app_id targetText : String) : Json :=
  .obj
    [("common", .obj [("app_id", .str app_id)]),
     ("business", .obj
       [("sub", .str "ise"),
        ("ent", .str "cn_vip"),
        ("category", .str "read_sentence"),
        ("cmd", .str "ssb"),
        ("text", .str ("\uFEFF" ++ targetText)),
        ("tte", .str "utf-8"),
        ("ttp_skip", .bool true),
        ("aue", .str "raw"),
        ("auf", .str "audio/L16;rate=16000"),
        ("aus", .num 1)]),
     ("data", .obj
       [("status", .num 0),
        ("data", .str ""),
        ("data_type", .num 1)])]

/-! ## Base64 encoding: `arrayBufferToBase64` / `simpleBase64Encode`
(lines 295-333)

`arrayBufferToBase64` first turns the buffer into a binary string with
`String.fromCharCode` per byte, so `charCodeAt` in the encoder reads back
exactly the byte values; the buffer is embedded as its list of byte values.
In `simpleBase64Encode`, reading past the end of the string makes
`charCodeAt` return `NaN`; JavaScript bitwise operators coerce `NaN` to `0`
(`NaN >> 4 === 0`, `(NaN & 15) === 0`), and the `isNaN` checks substitute `=`
for the third and fourth characters — the three tail cases below spell out the
loop body under these rules. -/

/-- The encoder's alphabet string `chars`. -/
def b64chars : String :=
  "ABCDEFGHIJKLMNOPQRSTUVWXYZabcdefghijklmnopqrstuvwxyz0123456789+/"

/-- `chars.charAt(n)`; every index the encoder produces is below 64. -/
def b64charAt (n : Nat) : Char := b64chars.data.getD n 'A'

/-- `simpleBase64Encode`, the while loop unrolled by how many of the three
bytes of the group exist. -/
def simpleBase64Encode : List Nat → String
  | [] => ""
  | [c1] =>
    String.mk [b64charAt (c1 >>> 2), b64charAt ((c1 &&& 3) <<< 4), '=', '=']
  | [c1, c2] =>
    String.mk [b64charAt (c1 >>> 2), b64charAt (((c1 &&& 3) <<< 4) ||| (c2 >>> 4)),
               b64charAt ((c2 &&& 15) <<< 2), '=']
  | c1 :: c2 :: c3 :: rest =>
    String.mk [b64charAt (c1 >>> 2), b64charAt (((c1 &&& 3) <<< 4) ||| (c2 >>> 4)),
               b64charAt (((c2 &&& 15) <<< 2) ||| (c3 >>> 6)), b64charAt (c3 &&& 63)] ++
    simpleBase64Encode rest

/-- `arrayBufferToBase64` on the buffer's byte values.  Its `Buffer` branch
(`Buffer.from(binary, 'binary').toString('base64')`, an external library
documented to produce standard RFC 4648 base64 of the same bytes) and its
fallback branch `simpleBase64Encode` compute the same string, so both are
embedded by the fallback, which is in the source. -/
def arrayBufferToBase64 (bytes : List Nat) : String := simpleBase64Encode bytes

/-- Index of a character in a list (the value of a base64 character). -/
def idxOf (c : Char) : List Char → Option Nat
  | [] => none
  | d :: ds => if d = c then some 0 else (idxOf c ds).map (· + 1)

/-- Value of a base64 alphabet character. -/
def b64val (c : Char) : Nat := (idxOf c b64chars.data).getD 0

/-- A standard base64 decoder, the verification-side inverse used to state the
round-trip property: four characters at a time, `=` padding marking a one- or
two-byte tail. -/
def base64Decode : List Char → List Nat
  | e1 :: e2 :: e3 :: e4 :: rest =>
    if e3 = '=' then [(b64val e1 <<< 2) ||| (b64val e2 >>> 4)]
    else if e4 = '=' then
      [(b64val e1 <<< 2) ||| (b64val e2 >>> 4),
       ((b64val e2 &&& 15) <<< 4) ||| (b64val e3 >>> 2)]
    else
      ((b64val e1 <<< 2) ||| (b64val e2 >>> 4)) ::
      (((b64val e2 &&& 15) <<< 4) ||| (b64val e3 >>> 2)) ::
      (((b64val e3 &&& 3) <<< 6) ||| b64val e4) ::
      base64Decode rest
  | _ => []

/-! ## The credential signer `generateSignature` (lines 82-107)

The signer composes external primitives — `CryptoJS.HmacSHA256`,
`CryptoJS.enc.Base64.stringify`, `CryptoJS.enc.Utf8.parse`,
`Date.prototype.toUTCString` and `encodeURIComponent` — none of which are
repository code; each is embedded by its published definition (FIPS 180-4 /
RFC 2104 for the hash and MAC, ECMA-262 for the date rendering and the URI
escaping), as the spec describes: "signature = base64(HMAC-SHA256(canonical,
apiSecret))". -/

/-- UTF-8 bytes of a code point (how `CryptoJS.enc.Utf8.parse` and the HMAC
input conversion read a string). -/
def utf8Enc (n : Nat) : List Nat :=
  if n < 128 then [n]
  else if n < 2048 then [192 ||| (n >>> 6), 128 ||| (n &&& 63)]
  else if n < 65536 then
    [224 ||| (n >>> 12), 128 ||| ((n >>> 6) &&& 63), 128 ||| (n &&& 63)]
  else
    [240 ||| (n >>> 18), 128 ||| ((n >>> 12) &&& 63), 128 ||| ((n >>> 6) &&& 63),
     128 ||| (n &&& 63)]

/-- UTF-8 bytes of a string. -/
def strBytes (s : String) : List Nat :=
  s.data.foldr (fun c acc => utf8Enc c.toNat ++ acc) []

/-- Truncation to 32 bits. -/
def w32 (n : Nat) : Nat := n % 4294967296

/-- 32-bit right rotation. -/
def rotr (n x : Nat) : Nat := w32 ((x >>> n) ||| (x <<< (32 - n)))

/-- The SHA-256 round constants (FIPS 180-4 §4.2.2). -/
def K256 : List Nat :=
  [1116352408, 1899447441, 3049323471, 3921009573, 961987163,
   1508970993, 2453635748, 2870763221, 3624381080, 310598401,
   607225278, 1426881987, 1925078388, 2162078206, 2614888103,
   3248222580, 3835390401, 4022224774, 264347078, 604807628,
   770255983, 1249150122, 1555081692, 1996064986, 2554220882,
   2821834349, 2952996808, 3210313671, 3336571891, 3584528711,
   113926993, 338241895, 666307205, 773529912, 1294757372,
   1396182291, 1695183700, 1986661051, 2177026350, 2456956037,
   2730485921, 2820302411, 3259730800, 3345764771, 3516065817,
   3600352804, 4094571909, 275423344, 430227734, 506948616,
   659060556, 883997877, 958139571, 1322822218, 1537002063,
   1747873779, 1955562222, 2024104815, 2227730452, 2361852424,
   2428436474, 2756734187, 3204031479, 3329325298]

/-- The SHA-256 initial hash value (FIPS 180-4 §5.3.3). -/
def H256 : List Nat :=
  [1779033703, 3144134277, 1013904242, 2773480762,
   1359893119, 2600822924, 528734635, 1541459225]

/-- Big-endian 8-byte encoding of the message bit length. -/
def be64 (n : Nat) : List Nat :=
  [(n >>> 56) % 256, (n >>> 48) % 256, (n >>> 40) % 256, (n >>> 32) % 256,
   (n >>> 24) % 256, (n >>> 16) % 256, (n >>> 8) % 256, n % 256]

/-- Big-endian 4-byte encoding of a 32-bit word. -/
def be32 (n : Nat) : List Nat :=
  [(n >>> 24) % 256, (n >>> 16) % 256, (n >>> 8) % 256, n % 256]

/-- SHA-256 padding: a `0x80` byte, zeros to 56 mod 64, the bit length. -/
def padMessage (msg : List Nat) : List Nat :=
  msg ++ (128 :: List.replicate ((119 - msg.length % 64) % 64) 0) ++ be64 (8 * msg.length)

/-- Big-endian words from bytes. -/
def bytesToWords : List Nat → List Nat
  | a :: b :: c :: d :: rest =>
    ((((a <<< 8) ||| b) <<< 8 ||| c) <<< 8 ||| d) :: bytesToWords rest
  | _ => []

/-- σ₀ of the message schedule. -/
def smallSigma0 (x : Nat) : Nat := (rotr 7 x) ^^^ (rotr 18 x) ^^^ (x >>> 3)

/-- σ₁ of the message schedule. -/
def smallSigma1 (x : Nat) : Nat := (rotr 17 x) ^^^ (rotr 19 x) ^^^ (x >>> 10)

/-- Extends the 16 block words to the 64-entry message schedule. -/
def extendSchedule : List Nat → Nat → List Nat
  | w, 0 => w
  | w, n + 1 =>
    let len := w.length
    let nw := w32 (smallSigma1 (w.getD (len - 2) 0) + w.getD (len - 7) 0 +
                   smallSigma0 (w.getD (len - 15) 0) + w.getD (len - 16) 0)
    extendSchedule (w ++ [nw]) n

/-- One SHA-256 round on the eight-word working state. -/
def round1 (st : List Nat) (wk : Nat × Nat) : List Nat :=
  match st with
  | [a, b, c, d, e, f, g, h] =>
    let S1 := (rotr 6 e) ^^^ (rotr 11 e) ^^^ (rotr 25 e)
    let ch := (e &&& f) ^^^ ((e ^^^ 4294967295) &&& g)
    let temp1 := w32 (h + S1 + ch + wk.2 + wk.1)
    let S0 := (rotr 2 a) ^^^ (rotr 13 a) ^^^ (rotr 22 a)
    let maj := (a &&& b) ^^^ (a &&& c) ^^^ (b &&& c)
    let temp2 := w32 (S0 + maj)
    [w32 (temp1 + temp2), a, b, c, w32 (d + temp1), e, f, g]
  | other => other

/-- One compression-function application. -/
def compressBlock (st : List Nat) (block : List Nat) : List Nat :=
  let w := extendSchedule (bytesToWords block) 48
  let final := (w.zip K256).foldl round1 st
  (st.zip final).map (fun p => w32 (p.1 + p.2))

/-- Splits padded input into 64-byte blocks (fuel-bounded, fuel = length). -/
def chunk64Go : Nat → List Nat → List (List Nat)
  | 0, _ => []
  | _ + 1, [] => []
  | n + 1, l => l.take 64 :: chunk64Go n (l.drop 64)

/-- SHA-256 of a byte list. -/
def sha256 (msg : List Nat) : List Nat :=
  let padded := padMessage msg
  let st := (chunk64Go padded.length padded).foldl compressBlock H256
  st.foldr (fun wrd acc => be32 wrd ++ acc) []

/-- HMAC-SHA256 (RFC 2104): the key zero-padded to the 64-byte block (hashed
first were it longer), inner pad `0x36`, outer pad `0x5c`. -/
def hmacSha256 (key msg : List Nat) : List Nat :=
  let k0 := (if 64 < key.length then sha256 key else key) ++
            List.replicate (64 - (if 64 < key.length then 32 else key.length)) 0
  let ipad := k0.map (fun b => b ^^^ 54)
  let opad := k0.map (fun b => b ^^^ 92)
  sha256 (opad ++ sha256 (ipad ++ msg))

/-- Modelled from the spec: `new Date().toUTCString()` is a JavaScript
built-in, not repository code; the spec calls the signer a "pure function of
(now, Credentials, method, path)" whose date "is embedded".  An instant is
embedded by its UTC calendar fields together with its milliseconds; two
instants are the same moment exactly when all fields agree. -/
structure UTCInstant where
  wd : Nat
  day : Nat
  month : Nat
  year : Nat
  hour : Nat
  minute : Nat
  second : Nat
  ms : Nat
deriving Repr, DecidableEq

/-- Weekday names of the ECMA-262 `toUTCString` format (0 = Sunday). -/
def wdName (n : Nat) : String :=
  ["Sun", "Mon", "Tue", "Wed", "Thu", "Fri", "Sat"].getD n "Sun"

/-- Month names of the ECMA-262 `toUTCString` format (1 = January). -/
def monthName (n : Nat) : String :=
  ["", "Jan", "Feb", "Mar", "Apr", "May", "Jun", "Jul", "Aug", "Sep", "Oct", "Nov",
   "Dec"].getD n ""

/-- Two-digit zero padding. -/
def pad2 (n : Nat) : String := if n < 10 then "0" ++ toString n else toString n

/-- `toUTCString` per ECMA-262: `Www, DD Mmm YYYY HH:MM:SS GMT`.  The
rendering has one-second resolution — the `ms` field does not appear. -/
def toUTCString (t : UTCInstant) : String :=
  wdName t.wd ++ ", " ++ pad2 t.day ++ " " ++ monthName t.month ++ " " ++
  toString t.year ++ " " ++ pad2 t.hour ++ ":" ++ pad2 t.minute ++ ":" ++
  pad2 t.second ++ " GMT"

/-- Unreserved characters of `encodeURIComponent` (ECMA-262): alphanumerics
and `- _ . ! ~ * ' ( )`; code point 39 is the apostrophe. -/
def isUnreservedURI (c : Char) : Bool :=
  c.isAlpha || c.isDigit || c ∈ "-_.!~*()".data || c.toNat = 39

/-- Uppercase hex digit. -/
def hexDigit (n : Nat) : Char := "0123456789ABCDEF".data.getD n '0'

/-- Percent-escape of one byte. -/
def pctByte (b : Nat) : String := String.mk ['%', hexDigit (b >>> 4), hexDigit (b &&& 15)]

/-- `encodeURIComponent` per ECMA-262: unreserved characters kept, everything
else percent-escaped byte-wise in UTF-8. -/
def encodeURIComponent (s : String) : String :=
  s.data.foldr
    (fun c acc =>
      (if isUnreservedURI c then String.mk [c]
       else ((utf8Enc c.toNat).map pctByte).foldr (· ++ ·) "") ++ acc) ""

/-- The canonical string signed by `generateSignature`:
`host: ise-api.xfyun.cn\ndate: {date}\n{method} /v2/open-ise HTTP/1.1`, with
the default `method = 'GET'`. -/
def signatureStringOf (date : String) : String :=
  "host: ise-api.xfyun.cn\ndate: " ++ date ++ "\nGET /v2/open-ise HTTP/1.1"

/-- `signatureB64`: base64 of the HMAC-SHA256 of the canonical string under
`API_SECRET` (`CryptoJS.enc.Base64.stringify(CryptoJS.HmacSHA256(...))`). -/
def signatureB64Of (date : String) : String :=
  simpleBase64Encode (hmacSha256 (strBytes API_SECRET) (strBytes (signatureStringOf date)))

/-- The `authorization` origin string, assembled from the api key, algorithm
name, signed-headers list and the signature. -/
def authorizationOf (date : String) : String :=
  "api_key=\"" ++ API_KEY ++
  "\", algorithm=\"hmac-sha256\", headers=\"host date request-line\", signature=\"" ++
  signatureB64Of date ++ "\""

/-- The signed URL `generateSignature` returns for a given rendered date:
base endpoint plus the `authorization` (itself base64-encoded), `date` and
`host` query parameters, each value through `encodeURIComponent`, in that
order. -/
def generateSignatureFromDate (date : String) : String :=
  BASE_URL ++ "?authorization=" ++
  encodeURIComponent (simpleBase64Encode (strBytes (authorizationOf date))) ++
  "&date=" ++ encodeURIComponent date ++
  "&host=" ++ encodeURIComponent "ise-api.xfyun.cn"

/-- `generateSignature` invoked at an instant: the date is
`new Date().toUTCString()` at that moment. -/
def generateSignatureAt (t : UTCInstant) : String :=
  generateSignatureFromDate (toUTCString t)

/-! # Theorems -/

/-! ## C1: the chunking loop -/

lemma chunkGo_nil (C L i fuel : Nat) (h : L ≤ i) : chunkGo C L i fuel = [] := by
  cases fuel with
  | zero => rfl
  | succ fuel => simp [chunkGo, Nat.not_lt.2 h]

lemma chunkGo_mem (L : Nat) :
    ∀ fuel i c, c ∈ chunkGo 2560 L i fuel → i ≤ c.offset ∧ c.offset < L := by
  intro fuel
  induction fuel with
  | zero => intro i c hc; simp [chunkGo] at hc
  | succ fuel ih =>
    intro i c hc
    by_cases hi : i < L
    · simp only [chunkGo, if_pos hi, List.mem_cons] at hc
      rcases hc with rfl | hc
      · simpa [frameAt] using hi
      · have h := ih (i + 2560) c hc
        omega
    · simp [chunkGo, hi] at hc

lemma chunkGo_length (L : Nat) :
    ∀ fuel i, L ≤ i + fuel * 2560 →
      (chunkGo 2560 L i fuel).length = (L - i + 2559) / 2560 := by
  intro fuel
  induction fuel with
  | zero =>
    intro i h
    simp only [chunkGo, List.length_nil]
    omega
  | succ fuel ih =>
    intro i h
    by_cases hi : i < L
    · simp only [chunkGo, if_pos hi, List.length_cons]
      rw [ih (i + 2560) (by omega)]
      omega
    · simp only [chunkGo, if_neg hi, List.length_nil]
      omega

lemma chunkGo_sum (L : Nat) :
    ∀ fuel i, L ≤ i + fuel * 2560 →
      ((chunkGo 2560 L i fuel).map SentChunk.len).sum = L - i := by
  intro fuel
  induction fuel with
  | zero =>
    intro i h
    simp only [chunkGo, List.map_nil, List.sum_nil]
    omega
  | succ fuel ih =>
    intro i h
    by_cases hi : i < L
    · simp only [chunkGo, if_pos hi, List.map_cons, List.sum_cons]
      rw [ih (i + 2560) (by omega)]
      simp only [frameAt]
      omega
    · simp only [chunkGo, if_neg hi, List.map_nil, List.sum_nil]
      omega

lemma chunkGo_pairwise (L : Nat) :
    ∀ fuel i, (chunkGo 2560 L i fuel).Pairwise (fun a b => a.offset < b.offset) := by
  intro fuel
  induction fuel with
  | zero => intro i; simp [chunkGo]
  | succ fuel ih =>
    intro i
    by_cases hi : i < L
    · simp only [chunkGo, if_pos hi]
      refine List.Pairwise.cons ?_ (ih (i + 2560))
      intro c hc
      have h := chunkGo_mem L fuel (i + 2560) c hc
      simp only [frameAt]
      omega
    · simp [chunkGo, hi]

lemma chunkGo_last (L : Nat) :
    ∀ fuel i, i < L → L ≤ i + fuel * 2560 →
      ∃ pre lst, chunkGo 2560 L i fuel = pre ++ [lst] ∧ lst.isLast = true ∧
        lst.status = 2 ∧ lst.aus = 4 ∧ ∀ c ∈ pre, c.isLast = false ∧ c.status = 1 := by
  intro fuel
  induction fuel with
  | zero => intro i hi h; omega
  | succ fuel ih =>
    intro i hi h
    by_cases hlast : L ≤ i + 2560
    · refine ⟨[], frameAt 2560 L i, ?_, ?_, ?_, ?_, ?_⟩
      · simp only [chunkGo, if_pos hi, List.nil_append]
        rw [chunkGo_nil _ _ _ _ hlast]
      · simp [frameAt, hlast]
      · simp [frameAt, sendStatus, hlast]
      · simp [frameAt, sendAus, hlast]
      · intro c hc
        simp at hc
    · obtain ⟨pre, lst, heq, h1, h2, h3, h4⟩ := ih (i + 2560) (by omega) (by omega)
      refine ⟨frameAt 2560 L i :: pre, lst, ?_, h1, h2, h3, ?_⟩
      · simp only [chunkGo, if_pos hi, heq, List.cons_append]
      · intro c hc
        rcases List.mem_cons.1 hc with rfl | hc
        · exact ⟨by simp [frameAt, hlast], by simp [frameAt, sendStatus, hlast]⟩
        · exact h4 c hc

/-- C1: for every audio buffer of `L > 0` bytes and chunk size 2560, the
chunking loop of `evaluateSpeech` produces exactly `⌈L / 2560⌉` chunks whose
byte lengths sum to `L`, sent in strictly increasing offset order, with
exactly one chunk flagged LAST — the final one, sent with `data.status = 2`
and `aus = 4` — while all earlier chunks have `data.status = 1`; for
`L = 96000` there are 38 chunks and the final one is 1280 bytes and LAST. -/
theorem C1_audio_framer (L : Nat) (hL : 0 < L) :
    (sentChunks chunk_size L).length = (L + chunk_size - 1) / chunk_size ∧
    ((sentChunks chunk_size L).map SentChunk.len).sum = L ∧
    (sentChunks chunk_size L).Pairwise (fun a b => a.offset < b.offset) ∧
    (∃ pre lst, sentChunks chunk_size L = pre ++ [lst] ∧ lst.isLast = true ∧
      lst.status = 2 ∧ lst.aus = 4 ∧ ∀ c ∈ pre, c.isLast = false ∧ c.status = 1) ∧
    (sentChunks chunk_size 96000).length = 38 ∧
    ((sentChunks chunk_size 96000).getLast?).map SentChunk.len = some 1280 ∧
    ((sentChunks chunk_size 96000).getLast?).map SentChunk.isLast = some true := by
  refine ⟨?_, ?_, ?_, ?_, by decide, by decide, by decide⟩
  · have h := chunkGo_length L (L + 1) 0 (by omega)
    simp only [sentChunks, chunk_size]
    rw [h]
    omega
  · have h := chunkGo_sum L (L + 1) 0 (by omega)
    simp only [sentChunks, chunk_size]
    rw [h]
    omega
  · simpa only [sentChunks, chunk_size] using chunkGo_pairwise L (L + 1) 0
  · simpa only [sentChunks, chunk_size] using chunkGo_last L (L + 1) 0 hL (by omega)

/-- Witness for C1 at `L = 96000`: the chunk lengths sum to the buffer size. -/
theorem C1_audio_framer_witness :
    ((sentChunks chunk_size 96000).map SentChunk.len).sum = 96000 :=
  (C1_audio_framer 96000 (by decide)).2.1

/-! ## C2, C3: the retry loop -/

lemma evalLoopGo_attempts (outcome : Nat → Except String SpeechRecognitionResult)
    (max : Nat) :
    ∀ fuel retryCount,
      ((evalLoopGo outcome max retryCount fuel).1.countP isAttempt) ≤ fuel := by
  intro fuel
  induction fuel with
  | zero => intro rc; simp [evalLoopGo]
  | succ fuel ih =>
    intro rc
    by_cases h : rc < max
    · simp only [evalLoopGo, if_pos h]
      cases ho : outcome rc with
      | ok r => simp [List.countP, List.countP.go, isAttempt]
      | error e =>
        by_cases h2 : max ≤ rc + 1
        · simp [h2, List.countP, List.countP.go, isAttempt]
        · simp only [if_neg h2]
          have h3 := ih (rc + 1)
          simp [List.countP_cons, isAttempt]
          omega
    · simp [evalLoopGo, h]

/-- C2: `evaluateSpeech` performs at most 3 attempts whatever the attempt
outcomes are; and when attempts 1 and 2 fail and attempt 3 succeeds, the loop
performs exactly attempts 1, 2, 3 and no 4th, tearing the connection down
after each failure and waiting `retryCount × 1000` ms — 1000 ms after the 1st
failure, 2000 ms after the 2nd — between attempts. -/
theorem C2_retry_policy :
    (∀ outcome, ((evaluateSpeechLoop outcome).1.countP isAttempt) ≤ maxRetries) ∧
    (∀ (r : SpeechRecognitionResult) (e1 e2 : String),
      evaluateSpeechLoop
        (fun k => if k = 0 then Except.error e1
                  else if k = 1 then Except.error e2 else Except.ok r) =
      ([RetryEvent.attempt 1, RetryEvent.close, RetryEvent.wait 1000,
        RetryEvent.attempt 2, RetryEvent.close, RetryEvent.wait 2000,
        RetryEvent.attempt 3], Except.ok r)) := by
  constructor
  · intro outcome
    exact evalLoopGo_attempts outcome maxRetries maxRetries 0
  · intro r e1 e2
    rfl

/-- C3: when all three attempts fail, the loop surfaces exactly one aggregated
error naming the attempt count (3) and wrapping the third attempt's error
message, and returns no result. -/
theorem C3_retry_exhausted (outcome : Nat → Except String SpeechRecognitionResult)
    (e0 e1 e2 : String)
    (h0 : outcome 0 = Except.error e0) (h1 : outcome 1 = Except.error e1)
    (h2 : outcome 2 = Except.error e2) :
    evaluateSpeechLoop outcome =
      ([RetryEvent.attempt 1, RetryEvent.close, RetryEvent.wait 1000,
        RetryEvent.attempt 2, RetryEvent.close, RetryEvent.wait 2000,
        RetryEvent.attempt 3, RetryEvent.close],
       Except.error ("语音评测失败，已重试3次: " ++ e2)) := by
  simp only [evaluateSpeechLoop, maxRetries, evalLoopGo, h0, h1, h2]
  rfl

/-- Witness for C3: all three attempts failing with message `x`. -/
theorem C3_retry_exhausted_witness :
    evaluateSpeechLoop (fun _ => Except.error "x") =
      ([RetryEvent.attempt 1, RetryEvent.close, RetryEvent.wait 1000,
        RetryEvent.attempt 2, RetryEvent.close, RetryEvent.wait 2000,
        RetryEvent.attempt 3, RetryEvent.close],
       Except.error ("语音评测失败，已重试3次: " ++ "x")) :=
  C3_retry_exhausted (fun _ => Except.error "x") "x" "x" "x" rfl rfl rfl

/-! ## C4: the seven score dimensions -/

lemma dimScore_cases (primary alt xml : String) :
    (∀ v, findTagNum primary xml = some v → dimScore primary alt xml = some v) ∧
    (findTagNum primary xml = none →
      ∀ v, findTagNum alt xml = some v → dimScore primary alt xml = some v) ∧
    (findTagNum primary xml = none → findTagNum alt xml = none →
      dimScore primary alt xml = none) :=
  ⟨fun v h => by simp [dimScore, h],
   fun h v h2 => by simp [dimScore, h, h2],
   fun h h2 => by simp [dimScore, h, h2]⟩

/-- C4: each of the seven score dimensions is looked up by its primary tag
name first, then by its fallback name, and reported `none` — the explicit
not-found outcome, distinct from a scored `some 0` — when neither is present;
`parseRealResult` then reports the dimension as the found value or `0`; and
the three concrete payloads of the claim behave as stated. -/
theorem C4_score_dimensions :
    (∀ p : (Scores → Option Nat) × String × String,
      p ∈ [(Scores.overall, "overall_score", "overall"),
           (Scores.pronunciation, "pronunciation_score", "pronunciation"),
           (Scores.fluency, "fluency_score", "fluency"),
           (Scores.integrity, "integrity_score", "integrity"),
           (Scores.tone, "tone_score", "tone"),
           (Scores.accuracy, "accuracy_score", "accuracy"),
           (Scores.emotion, "emotion_score", "emotion")] →
      ∀ xml : String,
        (∀ v, findTagNum p.2.1 xml = some v → p.1 (extractScoresFromXML xml) = some v) ∧
        (findTagNum p.2.1 xml = none →
          ∀ v, findTagNum p.2.2 xml = some v → p.1 (extractScoresFromXML xml) = some v) ∧
        (findTagNum p.2.1 xml = none → findTagNum p.2.2 xml = none →
          p.1 (extractScoresFromXML xml) = none)) ∧
    (∀ env dd xml r, env.data = some dd → dd.data = some xml →
      parseRealResult env = Except.ok r →
      r.overall_score = ((extractScoresFromXML xml).overall).getD 0) ∧
    (extractScoresFromXML "<overall_score>87</overall_score>").overall = some 87 ∧
    (extractScoresFromXML "<overall>54</overall>").overall = some 54 ∧
    (extractScoresFromXML "<result><sentence>x</sentence></result>").overall = none ∧
    (extractScoresFromXML "<overall_score>0</overall_score>").overall = some 0 ∧
    (extractScoresFromXML "<overall_score>0</overall_score>").overall ≠
      (extractScoresFromXML "<result><sentence>x</sentence></result>").overall := by
  refine ⟨?_, ?_, by decide, by decide, by decide, by decide, by decide⟩
  · intro p hp xml
    simp only [List.mem_cons, List.not_mem_nil, or_false] at hp
    rcases hp with rfl | rfl | rfl | rfl | rfl | rfl | rfl
    · exact dimScore_cases "overall_score" "overall" xml
    · exact dimScore_cases "pronunciation_score" "pronunciation" xml
    · exact dimScore_cases "fluency_score" "fluency" xml
    · exact dimScore_cases "integrity_score" "integrity" xml
    · exact dimScore_cases "tone_score" "tone" xml
    · exact dimScore_cases "accuracy_score" "accuracy" xml
    · exact dimScore_cases "emotion_score" "emotion" xml
  · intro env dd xml r hd hdd hp
    simp only [parseRealResult, hd, hdd] at hp
    by_cases hx : xml = ""
    · simp [hx] at hp
    · simp only [if_neg hx] at hp
      injection hp with h
      rw [← h]

/-- Witness for C4: the primary-name lookup applied to the claim's first
payload. -/
theorem C4_score_dimensions_witness :
    Scores.overall (extractScoresFromXML "<overall_score>87</overall_score>") = some 87 :=
  ((C4_score_dimensions.1 (Scores.overall, "overall_score", "overall")
      (List.mem_cons_self _ _) "<overall_score>87</overall_score>").1 87 (by decide))

/-! ## C5, C6, C10: the result parser and the result wait -/

lemma parseRealResult_isOk (env : Envelope) (dd : EnvData) (s : String)
    (hd : env.data = some dd) (hdd : dd.data = some s) (hs : s ≠ "") :
    ∃ r, parseRealResult env = Except.ok r := by
  simp only [parseRealResult, hd, hdd, if_neg hs]
  exact ⟨_, rfl⟩

lemma parseRealResult_status2 (env : Envelope) (dd : EnvData) (r : SpeechRecognitionResult)
    (hd : env.data = some dd) (h2 : dd.status = some 2)
    (hp : parseRealResult env = Except.ok r) :
    r.is_rejected = false ∧ r.except_info = "" := by
  rcases hdd : dd.data with _ | s
  · simp [parseRealResult, hd, hdd] at hp
  · by_cases hs : s = ""
    · simp [parseRealResult, hd, hdd, hs] at hp
    · simp only [parseRealResult, hd, hdd, if_neg hs] at hp
      injection hp with h
      rw [← h]
      simp [h2]

/-- C5: the result parser returns a result for every envelope whose payload is
a non-empty string — missing score tags and missing word attributes are
defaulted, never errors — and errors exactly when the payload is structurally
absent (no `data` object, or no `data.data` string; the present-but-empty
string, being falsy, takes the same throw). -/
theorem C5_parser_structural_only :
    (∀ env dd s, env.data = some dd → dd.data = some s → s ≠ "" →
      ∃ r, parseRealResult env = Except.ok r) ∧
    (∀ env, env.data = none → parseRealResult env = Except.error "解析评测结果失败") ∧
    (∀ env dd, env.data = some dd → dd.data = none →
      parseRealResult env = Except.error "解析评测结果失败") ∧
    (∀ env dd, env.data = some dd → dd.data = some "" →
      parseRealResult env = Except.error "解析评测结果失败") := by
  refine ⟨parseRealResult_isOk, ?_, ?_, ?_⟩
  · intro env hd
    simp [parseRealResult, hd]
  · intro env dd hd hdd
    simp [parseRealResult, hd, hdd]
  · intro env dd hd hdd
    simp [parseRealResult, hd, hdd]

/-- Witness for C5: a final envelope with payload `"x"` parses to a result. -/
theorem C5_parser_structural_only_witness :
    ∃ r, parseRealResult ⟨none, none, some ⟨some 2, some "x", some 1⟩, none, none⟩ =
      Except.ok r :=
  C5_parser_structural_only.1 _ ⟨some 2, some "x", some 1⟩ "x" rfl rfl (by decide)

/-- C6: while the session awaits its result, an interim envelope
(`data.status = 1`, no error code) leaves the wait unchanged, a malformed
frame is ignored, and an interim envelope followed by a final one
(`data.status = 2`, non-empty payload, no error code) leaves the wait exactly
as the final envelope alone would: resolved with the parse of the final
payload only. -/
theorem C6_interim_then_final :
    (∀ flag env dd, env.data = some dd → dd.status = some 1 →
      (env.code = none ∨ env.code = some 0) →
      step (.waiting flag) (.message (some env)) = .waiting flag) ∧
    (∀ flag, step (.waiting flag) (.message none) = .waiting flag) ∧
    (∀ interim fin dd1 dd2 s,
      interim.data = some dd1 → dd1.status = some 1 →
      (interim.code = none ∨ interim.code = some 0) →
      fin.data = some dd2 → dd2.status = some 2 → dd2.data = some s → s ≠ "" →
      (fin.code = none ∨ fin.code = some 0) →
      runReceive [.message (some interim), .message (some fin)] =
        runReceive [.message (some fin)] ∧
      ∃ r, runReceive [.message (some interim), .message (some fin)] = .resolved r ∧
        parseRealResult fin = Except.ok r) := by
  have hinterim : ∀ flag env dd, env.data = some dd → dd.status = some 1 →
      (env.code = none ∨ env.code = some 0) →
      step (.waiting flag) (.message (some env)) = .waiting flag := by
    intro flag env dd hd h1 hcode
    rcases hcode with hc | hc <;>
      simp [step, stepMessage, hc, handleData, hd, h1]
  refine ⟨hinterim, fun flag => rfl, ?_⟩
  intro interim fin dd1 dd2 s hd1 h1 hc1 hd2 h2 hdd2 hs hc2
  have hstep1 := hinterim false interim dd1 hd1 h1 hc1
  obtain ⟨r, hr⟩ := parseRealResult_isOk fin dd2 s hd2 hdd2 hs
  have hfin : step (.waiting false) (.message (some fin)) = .resolved r := by
    rcases hc2 with hc | hc <;>
      simp [step, stepMessage, hc, handleData, hd2, h2, hdd2, truthyStr, hs, hr]
  constructor
  · simp only [runReceive, List.foldl, hstep1]
  · exact ⟨r, by simp only [runReceive, List.foldl, hstep1, hfin], hr⟩

/-- Witness for C6: a concrete interim envelope then a concrete final one. -/
theorem C6_interim_then_final_witness :
    runReceive [.message (some ⟨some 0, none, some ⟨some 1, none, none⟩, none, none⟩),
                .message (some ⟨none, none, some ⟨some 2, some "x", some 1⟩, none, none⟩)] =
      runReceive [.message (some ⟨none, none, some ⟨some 2, some "x", some 1⟩, none, none⟩)] :=
  (C6_interim_then_final.2.2 _ _ ⟨some 1, none, none⟩ ⟨some 2, some "x", some 1⟩ "x"
    rfl rfl (Or.inr rfl) rfl rfl rfl (by decide) (Or.inl rfl)).1


lemma handleAction_ne_resolved (flag : Bool) (env : Envelope) (r : SpeechRecognitionResult) :
    handleAction flag env ≠ .resolved r := by
  unfold handleAction
  split <;> simp

lemma handleData_resolved (flag : Bool) (env : Envelope) (r : SpeechRecognitionResult)
    (h : handleData flag env = .resolved r) :
    ∃ dd, env.data = some dd ∧ dd.status = some 2 ∧ parseRealResult env = Except.ok r := by
  unfold handleData at h
  rcases hd : env.data with _ | dd
  · simp only [hd] at h
    exact absurd h (handleAction_ne_resolved _ _ _)
  · simp only [hd] at h
    by_cases h1 : dd.status = some 1
    · simp [h1] at h
    · rw [if_neg h1] at h
      by_cases h2 : dd.status = some 2 ∧ truthyStr dd.data
      · rw [if_pos h2] at h
        rcases hp : parseRealResult env with e | r'
        · simp only [hp] at h
          simp at h
        · simp only [hp] at h
          simp only [WaitState.resolved.injEq] at h
          refine ⟨dd, rfl, h2.1, ?_⟩
          rw [h]
      · rw [if_neg h2] at h
        by_cases h3 : dd.status = some 3
        · simp [h3] at h
        · rw [if_neg h3] at h
          by_cases h4 : dd.status = some 4
          · simp [h4] at h
          · rw [if_neg h4] at h
            exact absurd h (handleAction_ne_resolved _ _ _)

lemma stepMessage_resolved (flag : Bool) (env? : Option Envelope) (r : SpeechRecognitionResult)
    (h : stepMessage flag env? = .resolved r) :
    ∃ env dd, env? = some env ∧ env.data = some dd ∧ dd.status = some 2 ∧
      parseRealResult env = Except.ok r := by
  rcases env? with _ | env
  · simp [stepMessage] at h
  · simp only [stepMessage] at h
    rcases hc : env.code with _ | c
    · simp only [hc] at h
      obtain ⟨dd, h1, h2, h3⟩ := handleData_resolved flag env r h
      exact ⟨env, dd, rfl, h1, h2, h3⟩
    · simp only [hc] at h
      by_cases hc0 : c ≠ 0
      · simp [hc0] at h
      · rw [if_neg hc0] at h
        obtain ⟨dd, h1, h2, h3⟩ := handleData_resolved flag env r h
        exact ⟨env, dd, rfl, h1, h2, h3⟩

lemma step_resolved (s : WaitState) (e : WsEvent) (r : SpeechRecognitionResult)
    (h : step s e = .resolved r) :
    s = .resolved r ∨ (r.is_rejected = false ∧ r.except_info = "") := by
  cases s with
  | waiting flag =>
    cases e with
    | message env? =>
      obtain ⟨env, dd, _, h1, h2, h3⟩ := stepMessage_resolved flag env? r h
      exact Or.inr (parseRealResult_status2 env dd r h1 h2 h3)
    | socketError => simp [step] at h
    | socketClose code reason =>
      simp only [step] at h
      split at h <;> simp at h
  | resolved r' => cases e <;> exact Or.inl h
  | rejectedErr m => cases e <;> simp [step] at h

lemma foldl_step_resolved (events : List WsEvent) :
    ∀ s r, events.foldl step s = .resolved r →
      s = .resolved r ∨ (r.is_rejected = false ∧ r.except_info = "") := by
  induction events with
  | nil => intro s r h; exact Or.inl h
  | cons e es ih =>
    intro s r h
    rcases ih (step s e) r h with h2 | h2
    · exact step_resolved s e r h2
    · exact Or.inr h2

/-- C10: every result the wait resolves with has `is_rejected = false` and
`except_info = ""` — a rejection envelope (`data.status = 3`) always rejects
the wait with an error before any parsing, and `parseRealResult` only ever
feeds the resolve under a `data.status = 2` guard. -/
theorem C10_returned_results_never_rejected :
    (∀ events r, runReceive events = .resolved r →
      r.is_rejected = false ∧ r.except_info = "") ∧
    (∀ flag env dd, env.data = some dd → dd.status = some 3 →
      ∃ msg, step (.waiting flag) (.message (some env)) = .rejectedErr msg) := by
  constructor
  · intro events r h
    rcases foldl_step_resolved events (.waiting false) r h with h2 | h2
    · simp at h2
    · exact h2
  · intro flag env dd hd h3
    rcases hc : env.code with _ | c
    · exact ⟨"评测被拒绝", by simp [step, stepMessage, hc, handleData, hd, h3]⟩
    · by_cases hc0 : c = 0
      · subst hc0
        exact ⟨"评测被拒绝", by simp [step, stepMessage, hc, handleData, hd, h3]⟩
      · exact ⟨"API返回错误: " ++ jsOr env.message "未知错误",
          by simp [step, stepMessage, hc, hc0]⟩

/-- Witness for C10: a concrete rejection envelope rejects the wait. -/
theorem C10_returned_results_never_rejected_witness :
    ∃ msg, step (.waiting false)
        (.message (some ⟨none, none, some ⟨some 3, none, none⟩, none, none⟩)) =
      .rejectedErr msg :=
  C10_returned_results_never_rejected.2 false _ ⟨some 3, none, none⟩ rfl rfl

/-! ## C8: the configuration frame -/

/-- C8: for every target text, the configuration frame built by
`sendConfig(text)` is exactly the object the spec writes: app id under
`common`, the `ise`/`cn_vip`/`read_sentence`/`ssb` selectors, the BOM-prefixed
target text, UTF-8 text encoding, `ttp_skip`, raw 16 kHz audio and `aus = 1`
under `business`, and the parameters-only `data` stage
`{status: 0, data: "", data_type: 1}`. -/
theorem C8_config_frame : ∀ text, sendConfigFrame text = specConfigMessage APPID text := by
  intro text
  rfl

/-! ## C9: base64 round trip -/

lemma lt64_shr2 : ∀ c < 256, c >>> 2 < 64 := by decide

lemma shr4_lt : ∀ c < 256, c >>> 4 < 16 := by decide

lemma lt64_enc2 : ∀ a < 256, ∀ t < 16, ((a &&& 3) <<< 4) ||| t < 64 := by decide

lemma lt64_enc2a : ∀ a < 256, (a &&& 3) <<< 4 < 64 := by decide

lemma lt64_enc3 : ∀ b < 256, ∀ d < 4, ((b &&& 15) <<< 2) ||| d < 64 := by decide

lemma lt64_enc3a : ∀ b < 256, (b &&& 15) <<< 2 < 64 := by decide

lemma lt64_and63 : ∀ c < 256, c &&& 63 < 64 := by decide

lemma and3_lt : ∀ c < 256, c &&& 3 < 4 := by decide

lemma and15_lt : ∀ c < 256, c &&& 15 < 16 := by decide

lemma shr6_lt : ∀ c < 256, c >>> 6 < 4 := by decide

lemma rec1 : ∀ a < 256, ∀ t < 16,
    ((a >>> 2) <<< 2) ||| ((((a &&& 3) <<< 4) ||| t) >>> 4) = a := by decide

lemma rec1a : ∀ a < 256, ((a >>> 2) <<< 2) ||| (((a &&& 3) <<< 4) >>> 4) = a := by decide

lemma rec2 : ∀ a < 4, ∀ b < 256, ∀ d < 4,
    ((((a <<< 4) ||| (b >>> 4)) &&& 15) <<< 4) ||| ((((b &&& 15) <<< 2) ||| d) >>> 2) = b := by
  decide

lemma rec2a : ∀ a < 4, ∀ b < 256,
    ((((a <<< 4) ||| (b >>> 4)) &&& 15) <<< 4) ||| (((b &&& 15) <<< 2) >>> 2) = b := by decide

lemma rec3 : ∀ f < 16, ∀ c < 256,
    ((((f <<< 2) ||| (c >>> 6)) &&& 3) <<< 6) ||| (c &&& 63) = c := by decide

lemma b64val_charAt : ∀ n < 64, b64val (b64charAt n) = n := by decide

lemma b64charAt_ne_pad : ∀ n < 64, b64charAt n ≠ '=' := by decide

lemma base64Decode_pad2 (e1 e2 : Char) :
    base64Decode [e1, e2, '=', '='] = [(b64val e1 <<< 2) ||| (b64val e2 >>> 4)] := by
  simp [base64Decode]

lemma base64Decode_pad1 (e1 e2 e3 : Char) (h : e3 ≠ '=') :
    base64Decode [e1, e2, e3, '='] =
      [(b64val e1 <<< 2) ||| (b64val e2 >>> 4),
       ((b64val e2 &&& 15) <<< 4) ||| (b64val e3 >>> 2)] := by
  simp [base64Decode, h]

lemma base64Decode_full (e1 e2 e3 e4 : Char) (t : List Char) (h3 : e3 ≠ '=') (h4 : e4 ≠ '=') :
    base64Decode (e1 :: e2 :: e3 :: e4 :: t) =
      ((b64val e1 <<< 2) ||| (b64val e2 >>> 4)) ::
      (((b64val e2 &&& 15) <<< 4) ||| (b64val e3 >>> 2)) ::
      (((b64val e3 &&& 3) <<< 6) ||| b64val e4) :: base64Decode t := by
  simp [base64Decode, h3, h4]

lemma simpleB64_go :
    ∀ n bytes, List.length bytes ≤ n → (∀ b ∈ bytes, b < 256) →
      base64Decode (simpleBase64Encode bytes).data = bytes ∧
      (simpleBase64Encode bytes).length % 4 = 0 := by
  intro n
  induction n with
  | zero =>
    intro bytes h hb
    have hnil : bytes = [] := List.eq_nil_of_length_eq_zero (Nat.le_zero.1 h)
    subst hnil
    exact ⟨rfl, rfl⟩
  | succ n ih =>
    intro bytes h hb
    rcases bytes with _ | ⟨c1, _ | ⟨c2, _ | ⟨c3, rest⟩⟩⟩
    · exact ⟨rfl, rfl⟩
    · have h1 : c1 < 256 := hb c1 (by simp)
      constructor
      · show base64Decode [b64charAt (c1 >>> 2), b64charAt ((c1 &&& 3) <<< 4), '=', '='] = [c1]
        rw [base64Decode_pad2]
        rw [b64val_charAt _ (lt64_shr2 c1 h1), b64val_charAt _ (lt64_enc2a c1 h1)]
        rw [rec1a c1 h1]
      · have h4 : (simpleBase64Encode [c1]).length = 4 := rfl
        omega
    · have h1 : c1 < 256 := hb c1 (by simp)
      have h2 : c2 < 256 := hb c2 (by simp)
      constructor
      · show base64Decode
            [b64charAt (c1 >>> 2), b64charAt (((c1 &&& 3) <<< 4) ||| (c2 >>> 4)),
             b64charAt ((c2 &&& 15) <<< 2), '='] = [c1, c2]
        rw [base64Decode_pad1 _ _ _ (b64charAt_ne_pad _ (lt64_enc3a c2 h2))]
        rw [b64val_charAt _ (lt64_shr2 c1 h1),
            b64val_charAt _ (lt64_enc2 c1 h1 _ (shr4_lt c2 h2)),
            b64val_charAt _ (lt64_enc3a c2 h2)]
        rw [rec1 c1 h1 _ (shr4_lt c2 h2), rec2a (c1 &&& 3) (and3_lt c1 h1) c2 h2]
      · have h4 : (simpleBase64Encode [c1, c2]).length = 4 := rfl
        omega
    · have h1 : c1 < 256 := hb c1 (by simp)
      have h2 : c2 < 256 := hb c2 (by simp)
      have h3 : c3 < 256 := hb c3 (by simp)
      have hrest : ∀ b ∈ rest, b < 256 := fun b hbm => hb b (by simp [hbm])
      have hlen : rest.length ≤ n := by
        simp only [List.length_cons] at h
        omega
      obtain ⟨ihd, ihl⟩ := ih rest hlen hrest
      constructor
      · show base64Decode
            (b64charAt (c1 >>> 2) :: b64charAt (((c1 &&& 3) <<< 4) ||| (c2 >>> 4)) ::
             b64charAt (((c2 &&& 15) <<< 2) ||| (c3 >>> 6)) :: b64charAt (c3 &&& 63) ::
             (simpleBase64Encode rest).data) = c1 :: c2 :: c3 :: rest
        rw [base64Decode_full _ _ _ _ _
              (b64charAt_ne_pad _ (lt64_enc3 c2 h2 _ (shr6_lt c3 h3)))
              (b64charAt_ne_pad _ (lt64_and63 c3 h3))]
        rw [b64val_charAt _ (lt64_shr2 c1 h1),
            b64val_charAt _ (lt64_enc2 c1 h1 _ (shr4_lt c2 h2)),
            b64val_charAt _ (lt64_enc3 c2 h2 _ (shr6_lt c3 h3)),
            b64val_charAt _ (lt64_and63 c3 h3)]
        rw [rec1 c1 h1 _ (shr4_lt c2 h2),
            rec2 (c1 &&& 3) (and3_lt c1 h1) c2 h2 _ (shr6_lt c3 h3),
            rec3 (c2 &&& 15) (and15_lt c2 h2) c3 h3]
        rw [ihd]
      · have h4 : (simpleBase64Encode (c1 :: c2 :: c3 :: rest)).length =
            (simpleBase64Encode rest).length + 4 := rfl
        omega

/-- C9: for every byte buffer, the transport-safe text produced by
`arrayBufferToBase64` (via the `simpleBase64Encode` path, which its `Buffer`
branch agrees with) is valid base64 — its length is a multiple of four — and
a standard base64 decoder recovers exactly the original bytes, whatever the
input length's residue mod 3. -/
theorem C9_base64_roundtrip (bytes : List Nat) (hb : ∀ b ∈ bytes, b < 256) :
    base64Decode (arrayBufferToBase64 bytes).data = bytes ∧
    (arrayBufferToBase64 bytes).length % 4 = 0 :=
  simpleB64_go bytes.length bytes (le_refl _) hb

/-- Witness for C9 on a four-byte buffer (length residue 1 mod 3). -/
theorem C9_base64_roundtrip_witness :
    base64Decode (arrayBufferToBase64 [77, 97, 110, 255]).data = [77, 97, 110, 255] :=
  (C9_base64_roundtrip [77, 97, 110, 255] (by decide)).1

/-! ## C7: signature freshness -/

/-- C7 counterexample: two distinct signing instants — 2026-10-12
00:00:00.000 UTC and 00:00:00.500 UTC — render the same HTTP date, because
`toUTCString` has one-second resolution, so `generateSignature` embeds the
same signature, and indeed returns the same URL, at both. -/
theorem C7_same_second_collision :
    (⟨0, 12, 10, 2026, 0, 0, 0, 0⟩ : UTCInstant) ≠ ⟨0, 12, 10, 2026, 0, 0, 0, 500⟩ ∧
    signatureB64Of (toUTCString ⟨0, 12, 10, 2026, 0, 0, 0, 0⟩) =
      signatureB64Of (toUTCString ⟨0, 12, 10, 2026, 0, 0, 0, 500⟩) ∧
    generateSignatureAt ⟨0, 12, 10, 2026, 0, 0, 0, 0⟩ =
      generateSignatureAt ⟨0, 12, 10, 2026, 0, 0, 0, 500⟩ := by
  have hdate : toUTCString ⟨0, 12, 10, 2026, 0, 0, 0, 0⟩ =
      toUTCString ⟨0, 12, 10, 2026, 0, 0, 0, 500⟩ := rfl
  exact ⟨by decide, congrArg signatureB64Of hdate, congrArg generateSignatureFromDate hdate⟩

/-- C7 (amended): the signature depends on the signing instant only through
its rendered HTTP date, and signing at two instants whose rendered dates
differ yields two different signatures in the generated URL — witnessed at
2026-10-12 00:00:00 UTC against 00:00:01 UTC, where both the embedded
base64(HMAC-SHA256) signature and the whole URL differ. -/
theorem C7_signature_freshness :
    (∀ t t' : UTCInstant, toUTCString t = toUTCString t' →
      generateSignatureAt t = generateSignatureAt t') ∧
    signatureB64Of (toUTCString ⟨0, 12, 10, 2026, 0, 0, 0, 0⟩) ≠
      signatureB64Of (toUTCString ⟨0, 12, 10, 2026, 0, 0, 1, 0⟩) ∧
    generateSignatureAt ⟨0, 12, 10, 2026, 0, 0, 0, 0⟩ ≠
      generateSignatureAt ⟨0, 12, 10, 2026, 0, 0, 1, 0⟩ := by
  refine ⟨fun t t' h => congrArg generateSignatureFromDate h, by decide, by decide⟩

/-- Witness for C7: two instants 250 ms apart render the same date, and the
theorem's first part then gives the same URL. -/
theorem C7_signature_freshness_witness :
    generateSignatureAt ⟨0, 12, 10, 2026, 0, 0, 0, 0⟩ =
      generateSignatureAt ⟨0, 12, 10, 2026, 0, 0, 0, 250⟩ :=
  C7_signature_freshness.1 _ _ rfl
